import Mathlib

/-!
Verification of the func_wander symbolic synthesis engine.

This file is a shallow embedding of the core of the repository:
the atom library and function-tree enumerator (`func_node.h`), the
suitability comparison (`comparison.h`), the `RangeSet` (`common.h`),
the search driver with its JSON serialization, ranked pool and status
snapshot (`search_task.h`, `status.h`).

Machine integers are modelled as `Nat`/`Int` with explicit reductions
modulo `2 ^ 64` at the places where the source narrows to `std::size_t`.
Value vectors are `List Nat` and atom evaluators are Lean functions, in
line with the atom contract (pure, deterministic, fixed length).
-/

namespace FuncWander

/-! ### Atom library (`atom.h`, `func_node.h`: `AtomFuncs`)

An arity-0 atom carries its cached output vector and its `Constant()`
flag; an arity-1 atom an evaluator; an arity-2 atom an evaluator plus
the `Commutative()` and `Idempotent()` flags.  Each also carries its
printable `Str()` symbol. -/

structure AtomFunc0 where
  vals : List Nat
  constFlag : Bool
  sym : String

structure AtomFunc1 where
  eval : List Nat → List Nat
  sym : String

structure AtomFunc2 where
  eval : List Nat → List Nat → List Nat
  commutative : Bool
  idempotent : Bool
  sym : String

/-- The three arity buckets of `AtomFuncs`. -/
structure AtomFuncs where
  arg0 : List AtomFunc0
  arg1 : List AtomFunc1
  arg2 : List AtomFunc2

/-! ### Function trees (`func_node.h`: `FuncNode`)

A node of arity `k` owns exactly `k` children (the source keeps this
as an invariant between `m_atom_index.arity` and the nullness of
`m_arg1`/`m_arg2`); the inductive bakes the invariant in. -/

inductive FuncNode where
  | leaf (num : Nat)
  | un (num : Nat) (arg1 : FuncNode)
  | bin (num : Nat) (arg1 : FuncNode) (arg2 : FuncNode)
deriving DecidableEq, Repr

namespace FuncNode

/-- `FuncNode::Arity`. -/
def arity : FuncNode → Nat
  | .leaf _ => 0
  | .un _ _ => 1
  | .bin _ _ _ => 2

/-- `FuncNode::CurrentMaxLevel` — height of the tree. -/
def currentMaxLevel : FuncNode → Nat
  | .leaf _ => 0
  | .un _ a => currentMaxLevel a + 1
  | .bin _ l r => max (currentMaxLevel l) (currentMaxLevel r) + 1

/-- `FuncNode::FunctionsCount` — number of internal (arity ≥ 1) nodes. -/
def functionsCount : FuncNode → Nat
  | .leaf _ => 0
  | .un _ a => functionsCount a + 1
  | .bin _ l r => functionsCount l + functionsCount r + 1

end FuncNode

open FuncNode

/-- `FuncNode::MaxSerialNumber` — the count `M(l)` of canonical trees of
depth `≤ l`:  `M(0) = A₀`,
`M(l) = M(l-1) + (M(l-1) - M(l-2))·A₁ + M(l-1)·(M(l-1) - M(l-2))·A₂`
(with `M(-1) = 0`), computed exactly (`__int128` in the source). -/
def maxSerialNumber (L : AtomFuncs) : Nat → Nat
  | 0 => L.arg0.length
  | 1 =>
    let maxPrev := maxSerialNumber L 0
    maxPrev * maxPrev * L.arg2.length + maxPrev * L.arg1.length + maxPrev
  | l + 2 =>
    let maxPrev := maxSerialNumber L (l + 1)
    let maxPrevLvl := maxPrev - maxSerialNumber L l
    maxPrev * maxPrevLvl * L.arg2.length + maxPrevLvl * L.arg1.length + maxPrev

/-- `FuncNode::SerialNumber`.  The source declares the result as
`SerialNumber_t` (`__int128`) but accumulates in a local
`std::size_t snum`, so every addition wraps modulo `2 ^ 64`; the wrapped
sum equals the exact sum reduced modulo `2 ^ 64`, computed here in `ℤ`
(the subtraction `SerialNumber() - max_prev2` may be negative in the
wrapped representation). -/
def serialNumberI (L : AtomFuncs) : FuncNode → Int
  | .leaf n => (n : Int)
  | .un n a =>
    let level := currentMaxLevel (.un n a)
    let maxPrev : Int := (maxSerialNumber L (level - 1) : Nat)
    let maxPrev2 : Int := if level > 1 then (maxSerialNumber L (level - 2) : Nat) else 0
    let maxPrevLvl := maxPrev - maxPrev2
    (maxPrev + maxPrevLvl * n + (serialNumberI L a - maxPrev2)).emod (2 ^ 64)
  | .bin n l r =>
    let level := currentMaxLevel (.bin n l r)
    let maxPrev : Int := (maxSerialNumber L (level - 1) : Nat)
    let maxPrev2 : Int := if level > 1 then (maxSerialNumber L (level - 2) : Nat) else 0
    let maxPrevLvl := maxPrev - maxPrev2
    (maxPrev + maxPrevLvl * L.arg1.length + maxPrev * maxPrevLvl * n
      + maxPrev * (serialNumberI L r - maxPrev2) + serialNumberI L l).emod (2 ^ 64)

/-- The serial number as the non-negative integer the source returns. -/
def serialNumber (L : AtomFuncs) (t : FuncNode) : Nat :=
  (serialNumberI L t).toNat

/-- The level-search loop at the top of `FuncNode::FromSerialNumber`
(`while (snum_l <= snum) level += 1`), with fuel standing in for the
unbounded `while`. -/
def fromSerialLevel (L : AtomFuncs) : Nat → Nat → Nat → Option Nat
  | 0, _, _ => none
  | fuel + 1, level, snum =>
    if snum < maxSerialNumber L level then some level
    else fromSerialLevel L fuel (level + 1) snum

/-- `FuncNode::FromSerialNumber`, decoding a serial number into a tree.
Fuel bounds the recursion depth (the source recurses on the heap). -/
def fromSerialNumber (L : AtomFuncs) : Nat → Nat → Option FuncNode
  | 0, _ => none
  | fuel + 1, snum =>
    match fromSerialLevel L (fuel + 1) 0 snum with
    | none => none
    | some 0 => some (.leaf snum)
    | some (level + 1) =>
      let maxPrev := maxSerialNumber L level
      let maxPrev2 := match level with
        | 0 => 0
        | k + 1 => maxSerialNumber L k
      let maxPrevLvl := maxPrev - maxPrev2
      let offset := snum - maxPrev
      let arg1MaxSnum := maxPrevLvl * L.arg1.length
      if offset < arg1MaxSnum then
        (fromSerialNumber L fuel ((offset % maxPrevLvl) + maxPrev2)).map
          (fun c => .un (offset / maxPrevLvl) c)
      else
        let ar2Offset := offset - arg1MaxSnum
        let foo := ar2Offset / maxPrev
        let arg1Sn := ar2Offset % maxPrev
        let num := foo / maxPrevLvl
        let arg2Sn := foo % maxPrevLvl + maxPrev2
        match fromSerialNumber L fuel arg1Sn, fromSerialNumber L fuel arg2Sn with
        | some c1, some c2 => some (.bin num c1 c2)
        | _, _ => none

/-- `FuncNode::Constant` — structural constancy.  Out-of-range leaf
indices dereference past the bucket in the source (undefined); here
they default to `false`, a case no theorem depends on. -/
def constant (L : AtomFuncs) : FuncNode → Bool
  | .leaf n =>
    match L.arg0.get? n with
    | some a => a.constFlag
    | none => false
  | .un _ a => constant L a
  | .bin _ l r => constant L l && constant L r

/-- `FuncNode::Calculate` — recursive evaluation.  The per-node cache of
the source is semantically transparent because atom evaluators are pure;
out-of-range indices (undefined in the source) yield `[]`. -/
def calculate (L : AtomFuncs) : FuncNode → List Nat
  | .leaf n =>
    match L.arg0.get? n with
    | some a => a.vals
    | none => []
  | .un n a =>
    match L.arg1.get? n with
    | some f => f.eval (calculate L a)
    | none => []
  | .bin n l r =>
    match L.arg2.get? n with
    | some f => f.eval (calculate L l) (calculate L r)
    | none => []

/-- The numeric constancy test `Chars().min == Chars().max` set by
`Calculate` via `minmax_element` (undefined on an empty vector in the
source; the atom contract fixes the length at `N ≥ 1`). -/
def minEqMax (vs : List Nat) : Bool :=
  vs.min? == vs.max?

/-- `FuncNode::InitDepth` — the minimal tree of exact depth
`max_depth - current_depth`: a chain of unary atom-0 nodes ending in
the arity-0 atom-0 leaf.  The argument is that difference. -/
def initDepth : Nat → FuncNode
  | 0 => .leaf 0
  | k + 1 => .un 0 (initDepth k)

/-- `FuncNode::LastArityFunc`. -/
def lastArityFunc (L : AtomFuncs) : FuncNode → Bool
  | .leaf n => decide (n + 1 ≥ L.arg0.length)
  | .un n _ => decide (n + 1 ≥ L.arg1.length)
  | .bin n _ _ => decide (n + 1 ≥ L.arg2.length)

/-- `FuncNode::IterateArity0`.  On the last arity-0 atom it either fails
(depth exhausted) or transitions to arity 1 (`NextArity1` resets the
child to the default node, the atom-0 leaf); otherwise it increments the
atom index. -/
def iterateArity0 (L : AtomFuncs) (maxDepth nextDepth num : Nat) : Bool × FuncNode :=
  if lastArityFunc L (.leaf num) then
    if nextDepth > maxDepth then (false, .leaf num)
    else (true, .un 0 (.leaf 0))
  else (true, .leaf (num + 1))

/-- `FuncNode::IterateArity2_CheckConstant` (`true` = keep the advance). -/
def iterateArity2CheckConstant (L : AtomFuncs) (sc : Bool) (arg1Iterated : Bool)
    (l r : FuncNode) : Bool :=
  if sc then
    if arg1Iterated && (arity l == 0) && constant L l && (arity r == 0) && constant L r then
      false
    else true
  else true

/-- `FuncNode::IterateArity2_CheckSymmetric` (`true` = keep the advance):
for a commutative atom the advanced left serial must be `<` the right
serial when the atom is idempotent, `≤` otherwise. -/
def iterateArity2CheckSymmetric (L : AtomFuncs) (ss : Bool) (arg1Iterated : Bool)
    (num : Nat) (l r : FuncNode) : Bool :=
  if ss then
    match L.arg2.get? num with
    | some a =>
      if arg1Iterated && a.commutative then
        if a.idempotent then
          if serialNumber L l ≥ serialNumber L r then false else true
        else
          if serialNumber L l > serialNumber L r then false else true
      else true
    | none => true
  else true

/-- The recursive calls `m_arg1->Iterate` / `m_arg2->Iterate` of the
source, abstracted as a callback so that the mutually recursive group
`Iterate` / `IterateRaw` / `IterateArity1` / `IterateArity2` becomes a
single structural recursion on fuel. -/
abbrev IterFn := Nat → Nat → FuncNode → Option (Bool × FuncNode)

/-- `FuncNode::IterateArity1`.  Iterate the child inside the current
envelope; with `SKIP_CONSTANT`, an advance to a constant leaf child is
demoted to failure.  On failure, move to the next unary atom
(`NextArity1` + `InitDepth`) or transition to arity 2 (`NextArity2`
resets the left child to the default leaf and `InitDepth`s the right
one).  This step never fails. -/
def iterateArity1 (L : AtomFuncs) (sc : Bool) (recur : IterFn)
    (maxDepth nextDepth n : Nat) (a : FuncNode) : Option (Bool × FuncNode) :=
  match recur maxDepth nextDepth a with
  | none => none
  | some (ok, a1) =>
    let ok := if sc && ok && (arity a1 == 0) && constant L a1 then false else ok
    if ok then some (true, .un n a1)
    else if lastArityFunc L (.un n a) then
      some (true, .bin 0 (.leaf 0) (initDepth (maxDepth - nextDepth)))
    else
      some (true, .un (n + 1) (initDepth (maxDepth - nextDepth)))

/-- `FuncNode::IterateArity2`.  Iterate the left child; a success that
fails the constant or symmetric check is demoted to failure (the left
child keeps its advanced value only on a kept success).  On failure,
iterate the right child and reset the left to the default leaf; when
the right is exhausted too, advance the binary atom (`NextArity2` +
`InitDepth`) or fail on the last one. -/
def iterateArity2 (L : AtomFuncs) (sc ss : Bool) (recur : IterFn)
    (maxDepth nextDepth n : Nat) (l r : FuncNode) : Option (Bool × FuncNode) :=
  match recur maxDepth nextDepth l with
  | none => none
  | some (ok1, l1) =>
    let ok2 := ok1 && iterateArity2CheckConstant L sc ok1 l1 r
    let ok3 := ok2 && iterateArity2CheckSymmetric L ss ok2 n l1 r
    if ok3 then some (true, .bin n l1 r)
    else
      match recur maxDepth nextDepth r with
      | none => none
      | some (false, r1) =>
        if lastArityFunc L (.bin n l r) then some (false, .bin n l1 r1)
        else some (true, .bin (n + 1) (.leaf 0) (initDepth (maxDepth - nextDepth)))
      | some (true, r1) => some (true, .bin n (.leaf 0) r1)

/-- `FuncNode::IterateRaw` — dispatch on the arity, then on failure grow
the depth envelope by one (`InitDepth(current_max_depth + 1)`) while it
is still below `max_depth`. -/
def iterateRaw (L : AtomFuncs) (sc ss : Bool) (recur : IterFn)
    (maxDepth curDepth : Nat) (t : FuncNode) : Option (Bool × FuncNode) :=
  let nextDepth := curDepth + 1
  let curMax := curDepth + currentMaxLevel t
  let step : Option (Bool × FuncNode) :=
    match t with
    | .leaf n => some (iterateArity0 L curMax nextDepth n)
    | .un n a => iterateArity1 L sc recur curMax nextDepth n a
    | .bin n l r => iterateArity2 L sc ss recur curMax nextDepth n l r
  match step with
  | none => none
  | some (true, t1) => some (true, t1)
  | some (false, t1) =>
    if curMax < maxDepth then some (true, initDepth (curMax + 1 - curDepth))
    else some (false, t1)

/-- `FuncNode::Iterate` — advance to the successor tree, skipping
constant trees when `sc` (the `SKIP_CONSTANT` template flag) is set.
`some (true, t)` is a yielded successor, `some (false, t)` the
exhausted enumeration; `none` means the fuel ran out (the source's
`while` loop and child recursion carry no fuel). -/
def iterate (L : AtomFuncs) (sc ss : Bool) :
    Nat → Nat → Nat → FuncNode → Option (Bool × FuncNode)
  | 0, _, _, _ => none
  | fuel + 1, maxDepth, curDepth, t =>
    match iterateRaw L sc ss (iterate L sc ss fuel) maxDepth curDepth t with
    | none => none
    | some (false, t1) => some (false, t1)
    | some (true, t1) =>
      if arity t1 == 0 then some (true, t1)
      else if !sc then some (true, t1)
      else if constant L t1 then iterate L sc ss fuel maxDepth curDepth t1
      else if minEqMax (calculate L t1) then iterate L sc ss fuel maxDepth curDepth t1
      else some (true, t1)

/-! ### Concrete atom libraries

`testLib` mirrors the library of `tests/unittest` (`MakeAtoms`): the
argument atom `X`, constants `1 2 3` (constants after non-constants, the
`AtomFuncs::Add` discipline), unary `NOT` and `BITCOUNT`, binary `SUM`
(commutative, not idempotent), `AND` and `OR` (commutative and
idempotent), here over 16-bit values tabulated at `N = 4` inputs. -/

/-- Population count of a 16-bit value (`BITCOUNT`). -/
def bitcount16 (n : Nat) : Nat :=
  (List.range 16).foldl (fun acc i => acc + n / 2 ^ i % 2) 0

def testLib : AtomFuncs :=
  { arg0 := [⟨[0, 1, 2, 3], false, "X"⟩,
             ⟨[1, 1, 1, 1], true, "1"⟩,
             ⟨[2, 2, 2, 2], true, "2"⟩,
             ⟨[3, 3, 3, 3], true, "3"⟩]
    arg1 := [⟨fun v => v.map (fun x => 65535 - x), "NOT"⟩,
             ⟨fun v => v.map bitcount16, "BITCOUNT"⟩]
    arg2 := [⟨fun a b => List.zipWith (fun x y => (x + y) % 65536) a b, true, false, "SUM"⟩,
             ⟨fun a b => List.zipWith Nat.land a b, true, true, "AND"⟩,
             ⟨fun a b => List.zipWith Nat.lor a b, true, true, "OR"⟩] }

/-- A library with one (non-constant) arity-0 atom, an *empty* arity-1
bucket and one binary atom. -/
def degLib : AtomFuncs :=
  { arg0 := [⟨[0, 1], false, "X"⟩]
    arg1 := []
    arg2 := [⟨fun a b => List.zipWith (· + ·) a b, true, false, "SUM"⟩] }

/-- A library with two arity-0 atoms, one unary and one binary atom:
small enough that the tree counts `M(l)` are easy to cross-check, big
enough that `M(6) > 2 ^ 64`. -/
def lib211 : AtomFuncs :=
  { arg0 := [⟨[0, 1], false, "X"⟩, ⟨[1, 1], true, "1"⟩]
    arg1 := [⟨fun v => v.map (· + 1), "U"⟩]
    arg2 := [⟨fun a b => List.zipWith (· + ·) a b, false, false, "B"⟩] }

/-! ### Driving the enumeration

Helpers that repeatedly call `Iterate(max_depth)` from the enumeration
root (`current_depth = 0`), the way `SearchTask::SearchIterate` drives
the cursor.  The per-call fuel 50 is ample for the depths used here. -/

/-- The tree after `k` successful `Iterate(maxDepth)` calls. -/
def iterN (L : AtomFuncs) (sc ss : Bool) (maxDepth : Nat) : Nat → FuncNode → Option FuncNode
  | 0, t => some t
  | k + 1, t =>
    match iterate L sc ss 50 maxDepth 0 t with
    | some (true, t1) => iterN L sc ss maxDepth k t1
    | _ => none

/-- Run up to `steps` calls of `Iterate(maxDepth)`, checking that every
yielded tree's serial number strictly exceeds its predecessor's:
`some (some (t, s))` when the segment ends mid-run at tree `t` with last
serial `s`, `some none` when the enumeration reached exhaustion, `none`
on a monotonicity violation (or fuel exhaustion). -/
def monoSegRun (L : AtomFuncs) (sc ss : Bool) (maxDepth : Nat) :
    Nat → FuncNode → Nat → Option (Option (FuncNode × Nat))
  | 0, t, prev => some (some (t, prev))
  | steps + 1, t, prev =>
    match iterate L sc ss 50 maxDepth 0 t with
    | none => none
    | some (false, _) => some none
    | some (true, t1) =>
      if prev < serialNumber L t1 then
        monoSegRun L sc ss maxDepth steps t1 (serialNumber L t1)
      else none

/-- Canonical (reachable) trees: every atom index is within its bucket
and at every binary node the right subtree is at least as deep as the
left one (the right subtree then has depth exactly one less than the
node, the canonical form of §4.3). -/
def canonical (L : AtomFuncs) : FuncNode → Bool
  | .leaf n => decide (n < L.arg0.length)
  | .un n a => decide (n < L.arg1.length) && canonical L a
  | .bin n l r =>
    decide (n < L.arg2.length) && canonical L l && canonical L r
      && decide (currentMaxLevel l ≤ currentMaxLevel r)

/-- The symmetry constraint that actually holds on yielded trees: at
every binary node with a commutative atom, `sL < sR` for an idempotent
atom — except when both children are the default atom-0 leaf, the state
`NextArity1`/`NextArity2` initialise a fresh binary node to — and
`sL ≤ sR` otherwise. -/
def symOkRelaxed (L : AtomFuncs) : FuncNode → Bool
  | .leaf _ => true
  | .un _ a => symOkRelaxed L a
  | .bin n l r =>
    (match L.arg2.get? n with
     | some a =>
       if a.commutative then
         if a.idempotent then
           decide (serialNumber L l < serialNumber L r)
             || ((l == .leaf 0) && (r == .leaf 0))
         else decide (serialNumber L l ≤ serialNumber L r)
       else true
     | none => true)
    && symOkRelaxed L l && symOkRelaxed L r

/-- Run `Iterate(maxDepth)` to exhaustion (within `steps` calls) and
check `symOkRelaxed` on every yielded tree; `true` only when the run
reaches exhaustion with every yield satisfying it. -/
def symRun (L : AtomFuncs) (sc ss : Bool) (maxDepth : Nat) : Nat → FuncNode → Bool
  | 0, _ => false
  | steps + 1, t =>
    match iterate L sc ss 50 maxDepth 0 t with
    | none => false
    | some (false, _) => true
    | some (true, t1) => symOkRelaxed L t1 && symRun L sc ss maxDepth steps t1

/-! ### Suitability metrics (`comparison.h`) -/

/-- `SuitabilityMetrics`: distance to the target, tree height, internal
node count and distinct internal serial count. -/
structure SuitabilityMetrics where
  distance : Nat
  maxLevel : Nat
  functionsCount : Nat
  functionsUnique : Nat
deriving DecidableEq, Repr

/-- `SuitabilityMetrics::operator==` — all four fields. -/
def metricsEq (a b : SuitabilityMetrics) : Bool :=
  a.distance == b.distance && a.maxLevel == b.maxLevel
    && a.functionsCount == b.functionsCount && a.functionsUnique == b.functionsUnique

/-- `SuitabilityMetrics::operator<=>`.  The source compares `distance`,
then `max_level`, then `functions_unique`; the `functions_count`
comparison is commented out in `comparison.h` and therefore skipped. -/
def metricsCmp (a b : SuitabilityMetrics) : Ordering :=
  if a.distance > b.distance then .gt
  else if a.distance < b.distance then .lt
  else if a.maxLevel > b.maxLevel then .gt
  else if a.maxLevel < b.maxLevel then .lt
  else if a.functionsUnique > b.functionsUnique then .gt
  else if a.functionsUnique < b.functionsUnique then .lt
  else .eq

/-- Modelled from the spec: "A 4-tuple `(distance, max_depth,
nodes_total, nodes_unique)` ordered lexicographically" — the full
four-field lexicographic comparison the specification describes, for
comparison against `metricsCmp` above. -/
def metricsCmpSpec (a b : SuitabilityMetrics) : Ordering :=
  (compare a.distance b.distance).then <|
    (compare a.maxLevel b.maxLevel).then <|
      (compare a.functionsCount b.functionsCount).then
        (compare a.functionsUnique b.functionsUnique)

/-! ### RangeSet (`common.h`)

`std::set<std::pair<Tnum, Tnum>>` is modelled as a list of pairs sorted
in the `std::pair` lexicographic order; `AddRange` reproduces the
`lower_bound`/merge/erase/emplace sequence.  `Tnum` is instantiated at
`std::size_t` (as in `Target::MatchPositions`), so the guard
`prev->second >= start - 1` wraps when `start == 0`. -/

/-- `std::pair` lexicographic `<` on intervals. -/
def pairLt (a b : Nat × Nat) : Bool :=
  a.1 < b.1 || (a.1 == b.1 && a.2 < b.2)

/-- The merge loop
`while (range_it != end && range_it->first <= end + 1) { ... erase ... }`:
absorbs every following interval that starts at or before `e + 1`,
returning the extended right end and the survivors. -/
def mergeFollowing : Nat → List (Nat × Nat) → Nat × List (Nat × Nat)
  | e, [] => (e, [])
  | e, p :: rest =>
    if p.1 ≤ e + 1 then mergeFollowing (max e p.2) rest
    else (e, p :: rest)

/-- `RangeSet::AddRange`.  `start - 1` is `std::size_t` arithmetic:
at `start == 0` it wraps to `2 ^ 64 - 1` and the merge-with-previous
guard compares against that. -/
def addRange (rs : List (Nat × Nat)) (start stop : Nat) : List (Nat × Nat) :=
  let (s, e) := if start > stop then (stop, start) else (start, stop)
  let pre := rs.takeWhile (fun p => pairLt p (s, e))
  let post := rs.dropWhile (fun p => pairLt p (s, e))
  let sMinus1 := if s = 0 then 2 ^ 64 - 1 else s - 1
  let (pre2, s2, e2) :=
    match pre.getLast? with
    | some prev =>
      if prev.2 ≥ sMinus1 then (pre.dropLast, prev.1, max prev.2 e)
      else (pre, s, e)
    | none => (pre, s, e)
  let (e3, post2) := mergeFollowing e2 post
  pre2 ++ (s2, e3) :: post2

/-- `RangeSet::Count` — the sum of interval lengths. -/
def rangeCount (rs : List (Nat × Nat)) : Nat :=
  rs.foldl (fun acc p => acc + (p.2 - p.1 + 1)) 0

/-! ### Ranked pool (`search_task.h`: `SearchTask::CheckBest`)

`Calculate`, `MatchPositions` and `CalcDist` are pure functions of the
stored tree and the fixed target, so a pool entry is abstracted by the
triple they produce: value vector, match-position interval list and
suitability key. -/

structure PoolEntry where
  vals : List Nat
  ranges : List (Nat × Nat)
  suit : SuitabilityMetrics
deriving DecidableEq, Repr

/-- The duplicate scan of `CheckBest`: some pool entry has the same
value vector or the same match positions as the candidate. -/
def hasDup (e : PoolEntry) (pool : List PoolEntry) : Bool :=
  pool.any (fun b => b.vals == e.vals || b.ranges == e.ranges)

/-- The insertion loop of `CheckBest`: walk the pool to the first entry
strictly worse than the candidate; there, run the duplicate scan over
the whole pool and either abort or insert.  Falling off the end inserts
nothing. -/
def poolInsert (e : PoolEntry) (whole : List PoolEntry) : List PoolEntry → List PoolEntry
  | [] => []
  | b :: rest =>
    if metricsCmp e.suit b.suit = .lt then
      if hasDup e whole then b :: rest else e :: b :: rest
    else b :: poolInsert e whole rest

/-- `SearchTask::CheckBest`.  An empty pool accepts unconditionally and
returns early; a full pool rejects candidates worse than the threshold;
otherwise insert (with duplicate suppression), trim the tail to
`max_best` and recompute the threshold from the worst entry.  The
source calls `m_best.back()` at the end, undefined when the pool is
empty (only reachable with `max_best = 0`): that case is `none`. -/
def checkBest (e : PoolEntry) (maxBest : Nat) (pool : List PoolEntry)
    (thr : SuitabilityMetrics) : Option (List PoolEntry × SuitabilityMetrics) :=
  if pool.isEmpty then some ([e], thr)
  else if pool.length ≥ maxBest && metricsCmp e.suit thr = .gt then some (pool, thr)
  else
    let p1 := poolInsert e pool pool
    let p2 := p1.take maxBest
    match p2.getLast? with
    | none => none
    | some last => some (p2, last.suit)

/-- A sequence of `CheckBest` calls threaded through the pool state. -/
def runPool (maxBest : Nat) : List PoolEntry → List PoolEntry → SuitabilityMetrics →
    Option (List PoolEntry × SuitabilityMetrics)
  | [], pool, thr => some (pool, thr)
  | e :: es, pool, thr =>
    match checkBest e maxBest pool thr with
    | none => none
    | some (pool1, thr1) => runPool maxBest es pool1 thr1

/-- The deduplication invariant: two distinct pool entries never share a
value vector nor a match-position set. -/
def PoolDedup (pool : List PoolEntry) : Prop :=
  pool.Pairwise (fun a b => a.vals ≠ b.vals ∧ a.ranges ≠ b.ranges)

/-! ### JSON state (`search_task.h`: `ToJSON` / `FromJSON`)

A small model of the `nlohmann::json` values the driver reads and
writes.  Numbers are the unsigned integers the driver stores (`is_number`
/ `is_number_unsigned` both hold of them). -/

inductive Json where
  | num (n : Nat)
  | bool (b : Bool)
  | str (s : String)
  | arr (items : List Json)
  | obj (fields : List (String × Json))

/-- `json::find` over an object's fields. -/
def jsonFind : List (String × Json) → String → Option Json
  | [], _ => none
  | (k, v) :: rest, key => if k = key then some v else jsonFind rest key

/-- `j.is_object()`. -/
def Json.isObj : Json → Bool
  | .obj _ => true
  | _ => false

/-- `AtomFuncs::Get(arity, num)->Str()` (for the advisory `name` field;
out-of-range is undefined in the source and defaults to `""` here). -/
def atomSym (L : AtomFuncs) (arity num : Nat) : String :=
  match arity with
  | 0 => ((L.arg0.get? num).map AtomFunc0.sym).getD ""
  | 1 => ((L.arg1.get? num).map AtomFunc1.sym).getD ""
  | 2 => ((L.arg2.get? num).map AtomFunc2.sym).getD ""
  | _ => ""

/-- `FuncNode::ToJSON`: `arity`, `num`, advisory `name`, then `arg1`
(arity ≥ 1) and `arg2` (arity = 2). -/
def nodeToJSON (L : AtomFuncs) : FuncNode → Json
  | .leaf n =>
    .obj [("arity", .num 0), ("num", .num n), ("name", .str (atomSym L 0 n))]
  | .un n a =>
    .obj [("arity", .num 1), ("num", .num n), ("name", .str (atomSym L 1 n)),
          ("arg1", nodeToJSON L a)]
  | .bin n l r =>
    .obj [("arity", .num 2), ("num", .num n), ("name", .str (atomSym L 2 n)),
          ("arg1", nodeToJSON L l), ("arg2", nodeToJSON L r)]

/-- `FuncNode::FromJSON`: read `arity` and `num`, then the children
demanded by the arity.  The checks mirror the source
(`is_number_unsigned` on the indices, `is_object` on the children); an
arity above 2 builds a node violating the arity/children invariant in
the source and is modelled as a failure (spec §7 calls it one). -/
def nodeFromJSON (j : Json) : Option FuncNode :=
  match j with
  | .obj fields =>
    match jsonFind fields "arity" with
    | some (.num a) =>
      match jsonFind fields "num" with
      | some (.num n) =>
        match a with
        | 0 => some (.leaf n)
        | 1 =>
          match h1 : jsonFind fields "arg1" with
          | some (.obj f1) => (nodeFromJSON (.obj f1)).map (fun c => .un n c)
          | _ => none
        | 2 =>
          match h1 : jsonFind fields "arg1" with
          | some (.obj f1) =>
            match h2 : jsonFind fields "arg2" with
            | some (.obj f2) =>
              match nodeFromJSON (.obj f1), nodeFromJSON (.obj f2) with
              | some c1, some c2 => some (.bin n c1 c2)
              | _, _ => none
            | _ => none
          | _ => none
        | _ + 3 => none
      | _ => none
    | _ => none
  | _ => none
termination_by sizeOf j
decreasing_by
  all_goals
    have key : ∀ (fs : List (String × Json)) (k : String) (v : Json),
        jsonFind fs k = some v → sizeOf v < sizeOf fs := by
      intro fs
      induction fs with
      | nil => intro k v h; simp [jsonFind] at h
      | cons p rest ih =>
        intro k v h
        rw [jsonFind] at h
        split at h
        · cases h; cases p; simp; omega
        · have := ih _ _ h; cases p; simp; omega
  · have := key _ _ _ h1
    simp only [Json.obj.sizeOf_spec] at this ⊢
    omega
  · have := key _ _ _ h1
    simp only [Json.obj.sizeOf_spec] at this ⊢
    omega
  · have := key _ _ _ h2
    simp only [Json.obj.sizeOf_spec] at this ⊢
    omega

/-- Parse the `best` array in order (`m_best.emplace_back` +
`FromJSON` per element).  On a failing element the source keeps the
partially parsed entries and returns `false`; only the success case is
relied upon. -/
def parseBestList : List Json → Option (List FuncNode)
  | [] => some []
  | j :: rest =>
    match nodeFromJSON j with
    | some t => (parseBestList rest).map (fun ts => t :: ts)
    | none => none

/-- The driver state that `SearchTask::operator==` compares, minus the
`m_atoms`/`m_target` pointers (the round trip is between tasks over the
same library and target).  `Settings::operator==` reads only
`save_file`, `max_best` and `max_depth`, so the http settings are
omitted. -/
structure SearchTaskState where
  saveFile : String
  maxBest : Nat
  maxDepth : Nat
  count : Nat
  done : Bool
  suitThreshold : SuitabilityMetrics
  fn : FuncNode
  best : List FuncNode
deriving DecidableEq, Repr

/-- `SearchTask::ToJSON`. -/
def taskToJSON (L : AtomFuncs) (s : SearchTaskState) : Json :=
  .obj [("settings", .obj [("max_best", .num s.maxBest), ("max_depth", .num s.maxDepth)]),
        ("count", .num s.count),
        ("done", .bool s.done),
        ("suit_threshold", .obj [("distance", .num s.suitThreshold.distance),
                                 ("max_level", .num s.suitThreshold.maxLevel),
                                 ("functions_count", .num s.suitThreshold.functionsCount),
                                 ("functions_unique", .num s.suitThreshold.functionsUnique)]),
        ("current_fn", nodeToJSON L s.fn),
        ("best", .arr (s.best.map (nodeToJSON L)))]

/-- `SearchTask::FromJSON`.  The input is `none` when `json::parse`
discarded the string.  Fields are assigned in source order, so a late
failure leaves the earlier assignments in place.  (On a `current_fn`
parse failure the source leaves the cursor partially overwritten; it is
modelled as unchanged, a corner no theorem relies on — similarly after a
failing `best` element the partially parsed entries are dropped.) -/
def taskFromJSON (s0 : SearchTaskState) (parsed : Option Json) : Bool × SearchTaskState :=
  match parsed with
  | none => (false, s0)
  | some j =>
    match j with
    | .obj fields =>
      match jsonFind fields "settings" with
      | some (.obj sf) =>
        match jsonFind sf "max_best" with
        | some (.num mb) =>
          let s1 := { s0 with maxBest := mb }
          match jsonFind sf "max_depth" with
          | some (.num md) =>
            let s2 := { s1 with maxDepth := md }
            match jsonFind fields "count" with
            | some (.num c) =>
              let s3 := { s2 with count := c }
              match jsonFind fields "done" with
              | some (.bool dn) =>
                let s4 := { s3 with done := dn }
                match jsonFind fields "suit_threshold" with
                | some (.obj tf) =>
                  match jsonFind tf "distance", jsonFind tf "max_level",
                      jsonFind tf "functions_count", jsonFind tf "functions_unique" with
                  | some (.num d), some (.num ml), some (.num fc), some (.num fu) =>
                    let s5 := { s4 with suitThreshold := ⟨d, ml, fc, fu⟩ }
                    match jsonFind fields "current_fn" with
                    | some (.obj ff) =>
                      match nodeFromJSON (.obj ff) with
                      | some fn1 =>
                        let s6 := { s5 with fn := fn1, best := [] }
                        match jsonFind fields "best" with
                        | none => (true, s6)
                        | some (.arr items) =>
                          match parseBestList items with
                          | some ts => (true, { s6 with best := ts })
                          | none => (false, s6)
                        | some _ => (false, s6)
                      | none => (false, s5)
                    | _ => (false, s5)
                  | _, _, _, _ => (false, s4)
                | _ => (false, s4)
              | _ => (false, s3)
            | _ => (false, s2)
          | _ => (false, s1)
        | _ => (false, s0)
      | _ => (false, s0)
    | _ => (false, s0)

/-! ### Status snapshot (`search_task.h`: `GetStatus` / `Status`,
`status.h`)

Both compute, under the mutex, the same integer divisions:
`iterations_per_sec = count · 1000 / d`, `sn_per_sec = snum · 1000 / d`
and `remaining = (max_sn − snum) / sn_per_sec`, where `d` is the elapsed
time in milliseconds — with no guard on either divisor.  A zero divisor
is undefined in C++ and modelled as `none`.  (The floating-point
`done_percent` is left out.) -/

structure StatusR where
  snum : Nat
  maxSn : Nat
  iterationsPerSec : Nat
  snPerSec : Nat
  remainingSecs : Nat
  iterationsCount : Nat
deriving DecidableEq, Repr

/-- `SearchTask::GetStatus` (and the identical arithmetic in
`SearchTask::Status`), given the elapsed milliseconds. -/
def getStatus (L : AtomFuncs) (s : SearchTaskState) (elapsedMs : Nat) : Option StatusR :=
  let snum := serialNumber L s.fn
  let maxSn := maxSerialNumber L s.maxDepth
  if elapsedMs = 0 then none
  else
    let ips := s.count * 1000 / elapsedMs
    let snPerSec := snum * 1000 / elapsedMs
    if snPerSec = 0 then none
    else some ⟨snum, maxSn, ips, snPerSec, (maxSn - snum) / snPerSec, s.count⟩

/-! ## Theorems settling the claims -/

/-- C1 (counterexample): over an atom library with a non-empty arity-0
bucket but an empty arity-1 bucket (one non-constant leaf atom, one
binary atom), `Iterate(1)` from the initial tree first yields a
unary-shaped node and then `SUM(X;X)`, and both carry serial number 1 —
the serial numbers of successively yielded trees are *not* strictly
increasing, refuting the claim as stated for every library. -/
theorem C1_counterexample :
    iterate degLib false false 50 1 0 (.leaf 0) = some (true, .un 0 (.leaf 0)) ∧
    iterate degLib false false 50 1 0 (.un 0 (.leaf 0)) =
      some (true, .bin 0 (.leaf 0) (.leaf 0)) ∧
    serialNumber degLib (.leaf 0) = 0 ∧
    serialNumber degLib (.un 0 (.leaf 0)) = 1 ∧
    ¬ serialNumber degLib (.un 0 (.leaf 0)) <
        serialNumber degLib (.bin 0 (.leaf 0) (.leaf 0)) := by
  exact ⟨by decide, by decide, by decide, by decide, by decide⟩

set_option maxRecDepth 400000 in
set_option maxHeartbeats 4000000 in
/-- C1 (amended): for the unit-test atom library (non-empty buckets for
all three arities) with `max_depth = 2` and both pruning flags off, the
serial numbers of the successively yielded trees strictly increase all
the way to exhaustion — checked here as five chained segments of the
full 10251-step run, the last of which reaches exhaustion. -/
theorem C1_amended :
    serialNumber testLib (.leaf 0) = 0 ∧
    monoSegRun testLib false false 2 2100 (.leaf 0) 0 =
      some (some (.bin 0 (.un 1 (.leaf 0)) (.bin 1 (.leaf 0) (.leaf 2)), 2100)) ∧
    monoSegRun testLib false false 2 2100
        (.bin 0 (.un 1 (.leaf 0)) (.bin 1 (.leaf 0) (.leaf 2))) 2100 =
      some (some (.bin 1 (.un 1 (.leaf 0)) (.bin 0 (.leaf 3) (.leaf 0)), 4200)) ∧
    monoSegRun testLib false false 2 2100
        (.bin 1 (.un 1 (.leaf 0)) (.bin 0 (.leaf 3) (.leaf 0))) 4200 =
      some (some (.bin 1 (.un 1 (.leaf 0)) (.bin 2 (.leaf 2) (.leaf 1)), 6300)) ∧
    monoSegRun testLib false false 2 2100
        (.bin 1 (.un 1 (.leaf 0)) (.bin 2 (.leaf 2) (.leaf 1))) 6300 =
      some (some (.bin 2 (.un 1 (.leaf 0)) (.bin 1 (.leaf 1) (.leaf 0)), 8400)) ∧
    monoSegRun testLib false false 2 2100
        (.bin 2 (.un 1 (.leaf 0)) (.bin 1 (.leaf 1) (.leaf 0))) 8400 =
      some none := by
  exact ⟨by decide, by decide, by decide, by decide, by decide, by decide⟩

set_option maxRecDepth 40000 in
set_option maxHeartbeats 1000000 in
/-- C2 (code evaluated at the failing input): over a library with two
leaf atoms, one unary and one binary atom, the canonical depth-6 tree
decoded from serial `2 ^ 64` (which lies below `M(6)`) gets
`SerialNumber() = 0` — the accumulation happens in a `std::size_t`
local although the declared serial type is 128-bit — so
`FromSerialNumber(SerialNumber(t))` rebuilds the leaf `X` instead of
`t`, refuting the round trip for that reachable tree. -/
theorem C2_code_bug :
    2 ^ 64 < maxSerialNumber lib211 6 ∧
    (fromSerialNumber lib211 20 (2 ^ 64)).map
      (fun t => (currentMaxLevel t, canonical lib211 t, serialNumber lib211 t)) =
      some (6, true, 0) ∧
    ((fromSerialNumber lib211 20 (2 ^ 64)).bind
      (fun t => fromSerialNumber lib211 20 (serialNumber lib211 t))) =
      some (.leaf 0) ∧
    (fromSerialNumber lib211 20 (2 ^ 64)).map (fun t => decide (t = .leaf 0)) =
      some false := by
  exact ⟨by decide, by decide, by decide, by decide⟩

/-- C3 (counterexample): two suitability keys that differ only in
`functions_count` are *not* equal under `operator==`, yet
`operator<=>` reports them equivalent, while the specified four-field
lexicographic order separates them — the order implemented is not the
full lexicographic order over all four fields. -/
theorem C3_counterexample :
    metricsCmp ⟨0, 0, 1, 0⟩ ⟨0, 0, 2, 0⟩ = .eq ∧
    metricsEq ⟨0, 0, 1, 0⟩ ⟨0, 0, 2, 0⟩ = false ∧
    metricsCmpSpec ⟨0, 0, 1, 0⟩ ⟨0, 0, 2, 0⟩ = .lt := by
  exact ⟨by decide, by decide, by decide⟩

/-- C3 (amended): the implemented order is the lexicographic order over
the *three* fields `(distance, max_depth, nodes_unique)` —
`functions_count` is skipped (its comparison is commented out in
`comparison.h`): two keys compare as equivalent exactly when those
three fields agree, equivalently the order coincides with the
spec's four-field lexicographic order after erasing `functions_count`. -/
theorem C3_amended (a b : SuitabilityMetrics) :
    (metricsCmp a b = .eq ↔
      a.distance = b.distance ∧ a.maxLevel = b.maxLevel ∧
        a.functionsUnique = b.functionsUnique) ∧
    metricsCmp a b =
      metricsCmpSpec ⟨a.distance, a.maxLevel, 0, a.functionsUnique⟩
        ⟨b.distance, b.maxLevel, 0, b.functionsUnique⟩ := by
  constructor
  · unfold metricsCmp
    split_ifs <;> simp_all <;> omega
  · unfold metricsCmp metricsCmpSpec
    simp only [Nat.compare_def_lt, Ordering.then]
    split_ifs <;> simp_all <;> omega

/-- C4 (counterexample): with the skip-constant flag on (the
`SearchTask` unit-test configuration), the very first `Iterate(2)` from
the initial tree yields the arity-0 constant atom `1`: a yielded tree
that is structurally constant and whose evaluation has `min = max`,
refuting the claim for arity-0 roots (`Iterate` returns before the
constant check whenever the advanced tree is a leaf). -/
theorem C4_counterexample :
    iterate testLib true true 50 2 0 (.leaf 0) = some (true, .leaf 1) ∧
    constant testLib (.leaf 1) = true ∧
    minEqMax (calculate testLib (.leaf 1)) = true := by
  exact ⟨by decide, by decide, by decide⟩

/-- C4 (amended): with the skip-constant flag on, every yielded tree of
arity ≥ 1 is non-constant — not structurally constant, and its
evaluated output has `min ≠ max`; arity-0 roots are yielded with no
constant check.  Holds for every atom library, both settings of the
skip-symmetric flag, every fuel and every depth bound. -/
theorem C4_amended (L : AtomFuncs) (ss : Bool) (fuel maxDepth curDepth : Nat)
    (t t' : FuncNode) (h : iterate L true ss fuel maxDepth curDepth t = some (true, t'))
    (ha : arity t' ≠ 0) :
    constant L t' = false ∧ minEqMax (calculate L t') = false := by
  induction fuel generalizing t with
  | zero => simp [iterate] at h
  | succ fuel ih =>
    rw [iterate] at h
    split at h
    · exact Option.noConfusion h
    · simp at h
    · rename_i t1 _
      split at h
      · rename_i h0
        injection h with h'
        injection h' with _ h2
        subst h2
        exact absurd (by simpa using h0) ha
      · rw [if_neg (by simp)] at h
        by_cases hc : constant L t1 = true
        · rw [if_pos hc] at h
          exact ih t1 h
        · rw [if_neg hc] at h
          by_cases hm : minEqMax (calculate L t1) = true
          · rw [if_pos hm] at h
            exact ih t1 h
          · rw [if_neg hm] at h
            injection h with h'
            injection h' with _ h2
            subst h2
            simp only [Bool.not_eq_true] at hc hm
            exact ⟨hc, hm⟩

/-- C4 (witness for the amended theorem): from the last constant leaf,
`Iterate(2)` with skip-constant on yields `NOT(X)`, which the theorem
then certifies non-constant with `min ≠ max`. -/
theorem C4_amended_witness :
    constant testLib (.un 0 (.leaf 0)) = false ∧
    minEqMax (calculate testLib (.un 0 (.leaf 0))) = false :=
  C4_amended testLib true 50 2 0 (.leaf 3) (.un 0 (.leaf 0)) (by decide) (by decide)

/-- C5 (counterexample): with the skip-symmetric flag on (the unit-test
configuration `FuncNode<uint16_t, false, true>`), the 22nd yielded tree
of the `max_depth = 2` enumeration is `AND(X;X)` — its atom is
commutative and idempotent yet its children both have serial number 0,
violating the required `sL < sR` (this tree is asserted by the repo's
own `SkipSymmetric` unit test; a fresh binary node created on an atom
transition bypasses `IterateArity2_CheckSymmetric`). -/
theorem C5_counterexample :
    iterN testLib false true 2 22 (.leaf 0) = some (.bin 1 (.leaf 0) (.leaf 0)) ∧
    (testLib.arg2.get? 1).map (fun a => (a.commutative, a.idempotent)) =
      some (true, true) ∧
    ¬ serialNumber testLib (.leaf 0) < serialNumber testLib (.leaf 0) := by
  exact ⟨by decide, by decide, by decide⟩

set_option maxRecDepth 400000 in
set_option maxHeartbeats 4000000 in
/-- C5 (amended): with the skip-symmetric flag on, every yielded tree
satisfies, at every binary node with a commutative atom: `sL ≤ sR`, and
when the atom is also idempotent, `sL < sR` *except* when both children
are the freshly initialised atom-0 leaf (the state a new binary node is
created in, e.g. `AND(X;X)`) — checked over the entire `max_depth = 2`
enumeration of the unit-test library, through exhaustion. -/
theorem C5_amended :
    symRun testLib false true 2 2100 (.leaf 0) = true := by
  decide

/-- C8 (code evaluated at the failing input): `add_range(0,0)` followed
by `add_range(0,5)` — the second range overlapping the first — leaves
*two* stored intervals `[0,0]` and `[0,5]` instead of the single
spanning interval, and `count()` returns 7 although the represented set
`{0,…,5}` has 6 elements: with `Tnum = std::size_t` the merge guard
`prev->second >= start - 1` underflows at `start = 0`. -/
theorem C8_code_bug :
    addRange (addRange [] 0 0) 0 5 = [(0, 0), (0, 5)] ∧
    rangeCount (addRange (addRange [] 0 0) 0 5) = 7 ∧
    rangeCount (addRange (addRange [] 0 0) 0 5) ≠ 6 := by
  exact ⟨by decide, by decide, by decide⟩

/-- C10: the status snapshot divides by `sn_per_sec = snum · 1000 / d`
(and by the elapsed milliseconds `d`) with no guard, so the computation
is total only when both the cursor's serial number and the elapsed
milliseconds are positive: whenever the serial number is 0 (as in the
initial driver state, whose cursor is the atom-0 leaf) or no
millisecond has elapsed, the remaining-time estimate divides by zero. -/
theorem C10_status_division (L : AtomFuncs) (s : SearchTaskState) (elapsedMs : Nat)
    (h : serialNumber L s.fn = 0 ∨ elapsedMs = 0) :
    getStatus L s elapsedMs = none := by
  unfold getStatus
  rcases h with h | h
  · rcases Nat.eq_zero_or_pos elapsedMs with h0 | h0
    · simp [h0]
    · rw [if_neg (Nat.pos_iff_ne_zero.mp h0)]
      simp [h]
  · simp [h]

/-- C10 (witness): the initial driver state — cursor `X` with serial
number 0 — makes the status computation divide by zero even after a
positive elapsed time. -/
theorem C10_status_division_witness :
    getStatus testLib ⟨"", 32, 3, 0, false, ⟨1000000, 0, 0, 0⟩, .leaf 0, []⟩ 500 = none :=
  C10_status_division testLib ⟨"", 32, 3, 0, false, ⟨1000000, 0, 0, 0⟩, .leaf 0, []⟩ 500
    (Or.inl (by decide))

/-! ### Helper lemmas for the pool and serialization claims -/

/-- `nodeToJSON` always produces a json object. -/
theorem nodeToJSON_isObj (L : AtomFuncs) (t : FuncNode) :
    ∃ fs, nodeToJSON L t = Json.obj fs := by
  cases t <;> exact ⟨_, rfl⟩

set_option maxRecDepth 4000 in
/-- A tree serialized by `FuncNode::ToJSON` is parsed back by
`FuncNode::FromJSON` to the same tree (the advisory `name` field is
ignored on load). -/
theorem nodeFromJSON_nodeToJSON (L : AtomFuncs) (t : FuncNode) :
    nodeFromJSON (nodeToJSON L t) = some t := by
  induction t with
  | leaf n => simp [nodeToJSON, nodeFromJSON, jsonFind]
  | un n a ih =>
    obtain ⟨fs, hfs⟩ := nodeToJSON_isObj L a
    simp only [nodeToJSON, hfs]
    rw [nodeFromJSON.eq_def]
    simp only [jsonFind, String.reduceEq, reduceIte]
    split
    · rename_i f1 h1
      simp only [String.reduceEq, reduceIte] at h1
      injection h1 with h1'
      injection h1' with h1''
      subst h1''
      rw [← hfs, ih]
      rfl
    · rename_i h1
      exact (h1 fs (by simp)).elim
  | bin n l r ihl ihr =>
    obtain ⟨fl, hfl⟩ := nodeToJSON_isObj L l
    obtain ⟨fr, hfr⟩ := nodeToJSON_isObj L r
    simp only [nodeToJSON, hfl, hfr]
    rw [nodeFromJSON.eq_def]
    simp only [jsonFind, String.reduceEq, reduceIte]
    split
    · rename_i f1 h1
      simp only [String.reduceEq, reduceIte] at h1
      injection h1 with h1'
      injection h1' with h1''
      subst h1''
      split
      · rename_i f2 h2
        simp only [String.reduceEq, reduceIte] at h2
        injection h2 with h2'
        injection h2' with h2''
        subst h2''
        rw [← hfl, ← hfr, ihl, ihr]
      · rename_i h2
        exact (h2 fr (by simp)).elim
    · rename_i h1
      exact (h1 fl (by simp)).elim

/-- The `best` array round-trips element-wise and in order. -/
theorem parseBestList_map (L : AtomFuncs) (ts : List FuncNode) :
    parseBestList (ts.map (nodeToJSON L)) = some ts := by
  induction ts with
  | nil => simp [parseBestList]
  | cons t ts ih => simp [parseBestList, nodeFromJSON_nodeToJSON, ih]

/-- A failed duplicate scan means the candidate differs from every pool
entry in both the value vector and the match positions. -/
theorem hasDup_eq_false {e : PoolEntry} {pool : List PoolEntry}
    (h : hasDup e pool = false) :
    ∀ b ∈ pool, (b.vals ≠ e.vals ∧ b.ranges ≠ e.ranges) := by
  intro b hb
  have := List.any_eq_false.mp h b hb
  simp only [Bool.or_eq_true, beq_iff_eq, not_or] at this
  exact this

/-- The insertion loop either leaves the list unchanged or, when the
duplicate scan over the whole pool came back clean, splices the
candidate into the middle of the list. -/
theorem poolInsert_cases (e : PoolEntry) (whole : List PoolEntry) :
    ∀ l : List PoolEntry,
      poolInsert e whole l = l ∨
      (hasDup e whole = false ∧
        ∃ p s, l = p ++ s ∧ poolInsert e whole l = p ++ e :: s) := by
  intro l
  induction l with
  | nil => exact Or.inl rfl
  | cons b rest ih =>
    rw [poolInsert]
    by_cases hlt : metricsCmp e.suit b.suit = .lt
    · rw [if_pos hlt]
      by_cases hd : hasDup e whole = true
      · rw [if_pos hd]; exact Or.inl rfl
      · rw [if_neg hd]
        exact Or.inr ⟨Bool.not_eq_true _ ▸ hd, [], b :: rest, rfl, rfl⟩
    · rw [if_neg hlt]
      rcases ih with heq | ⟨hd, p, s, hsplit, heq⟩
      · rw [heq]; exact Or.inl rfl
      · exact Or.inr ⟨hd, b :: p, s, by rw [hsplit, List.cons_append],
          by rw [heq, List.cons_append]⟩

/-- One `CheckBest` call preserves the pool deduplication invariant. -/
theorem checkBest_dedup {e : PoolEntry} {maxBest : Nat} {pool pool' : List PoolEntry}
    {thr thr' : SuitabilityMetrics}
    (hinv : PoolDedup pool)
    (h : checkBest e maxBest pool thr = some (pool', thr')) : PoolDedup pool' := by
  unfold checkBest at h
  by_cases hp : pool.isEmpty = true
  · rw [if_pos hp] at h
    injection h with h'
    injection h' with h1 _
    subst h1
    simp [PoolDedup]
  · rw [if_neg hp] at h
    by_cases hearly :
        (decide (pool.length ≥ maxBest) && decide (metricsCmp e.suit thr = .gt)) = true
    · rw [if_pos hearly] at h
      injection h with h'
      injection h' with h1 _
      subst h1
      exact hinv
    · rw [if_neg hearly] at h
      have hins : PoolDedup (poolInsert e pool pool) := by
        rcases poolInsert_cases e pool pool with heq | ⟨hd, p, s, hsplit, heq⟩
        · rw [heq]; exact hinv
        · rw [heq]
          show List.Pairwise _ (p ++ e :: s)
          have hforall := hasDup_eq_false hd
          have hinv2 : List.Pairwise
              (fun a b : PoolEntry => a.vals ≠ b.vals ∧ a.ranges ≠ b.ranges) (p ++ s) := by
            rw [← hsplit]; exact hinv
          rw [List.pairwise_append] at hinv2 ⊢
          obtain ⟨hpp, hps, hcross⟩ := hinv2
          refine ⟨hpp, ?_, ?_⟩
          · rw [List.pairwise_cons]
            refine ⟨fun b hb => ?_, hps⟩
            have hb2 := hforall b (by rw [hsplit]; exact List.mem_append_right _ hb)
            exact ⟨hb2.1.symm, hb2.2.symm⟩
          · intro a ha b hb
            rcases List.mem_cons.mp hb with rfl | hb2
            · exact hforall a (by rw [hsplit]; exact List.mem_append_left _ ha)
            · exact hcross a ha b hb2
      rcases hlast : ((poolInsert e pool pool).take maxBest).getLast? with _ | last
      · simp only [hlast] at h
        exact Option.noConfusion h
      · simp only [hlast] at h
        injection h with h'
        injection h' with h1 h2
        rw [← h1]
        exact hins.sublist (List.take_sublist _ _)

/-! ### Theorems for the serialization, pool and error-handling claims -/

/-- C6: for every driver state, serializing with `ToJSON` and restoring
the result with `FromJSON` succeeds and reproduces the state field-wise:
`settings.max_best` and `max_depth`, the iteration count, the done
flag, the suitability threshold, the cursor tree and the pool entries
in order (the restore target must share the `save_file`, which is not
serialized; `Settings::operator==` reads nothing else beyond these). -/
theorem C6_roundtrip (L : AtomFuncs) (s s0 : SearchTaskState)
    (hsave : s0.saveFile = s.saveFile) :
    taskFromJSON s0 (some (taskToJSON L s)) = (true, s) := by
  obtain ⟨fs, hfs⟩ := nodeToJSON_isObj L s.fn
  have hfn : nodeFromJSON (Json.obj fs) = some s.fn := by
    rw [← hfs]; exact nodeFromJSON_nodeToJSON L s.fn
  unfold taskToJSON taskFromJSON
  simp only [jsonFind, if_pos, if_neg, hfs, hfn, parseBestList_map, String.reduceEq,
    reduceIte]
  obtain ⟨sf, mb, md, c, dn, ⟨d, ml, fc, fu⟩, fn, best⟩ := s
  obtain ⟨sf0, mb0, md0, c0, dn0, thr0, fn0, best0⟩ := s0
  simp_all

/-- C6 (witness): a concrete driver state round-trips to itself. -/
theorem C6_roundtrip_witness :
    taskFromJSON ⟨"state.json", 5, 2, 41, false, ⟨3, 1, 1, 1⟩, .un 0 (.leaf 2),
        [.bin 1 (.leaf 0) (.leaf 1), .leaf 3]⟩
      (some (taskToJSON testLib
        ⟨"state.json", 5, 2, 41, false, ⟨3, 1, 1, 1⟩, .un 0 (.leaf 2),
          [.bin 1 (.leaf 0) (.leaf 1), .leaf 3]⟩)) =
    (true, ⟨"state.json", 5, 2, 41, false, ⟨3, 1, 1, 1⟩, .un 0 (.leaf 2),
        [.bin 1 (.leaf 0) (.leaf 1), .leaf 3]⟩) :=
  C6_roundtrip testLib _ _ rfl

/-- C7: after any sequence of `CheckBest` calls from a deduplicated
pool (in particular from the empty initial pool), any two distinct
entries of the resulting pool have different value vectors and
different match-position sets. -/
theorem C7_pool_dedup (maxBest : Nat) (es : List PoolEntry) (pool0 : List PoolEntry)
    (thr0 : SuitabilityMetrics) (st' : List PoolEntry × SuitabilityMetrics)
    (hinv : PoolDedup pool0)
    (h : runPool maxBest es pool0 thr0 = some st') : PoolDedup st'.1 := by
  induction es generalizing pool0 thr0 with
  | nil =>
    rw [runPool] at h
    injection h with h'
    rw [← h']
    exact hinv
  | cons e es ih =>
    rw [runPool] at h
    split at h
    · exact Option.noConfusion h
    · rename_i pool1 thr1 heq
      exact ih pool1 thr1 (checkBest_dedup hinv heq) h

/-- C7 (witness): a concrete three-candidate run — the third candidate
repeats the first one's value vector and is suppressed — ends in a
deduplicated pool. -/
theorem C7_pool_dedup_witness :
    PoolDedup [⟨[2], [(2, 2)], ⟨3, 1, 1, 1⟩⟩, ⟨[1], [(1, 1)], ⟨5, 1, 1, 1⟩⟩] :=
  C7_pool_dedup 2
    [⟨[1], [(1, 1)], ⟨5, 1, 1, 1⟩⟩, ⟨[2], [(2, 2)], ⟨3, 1, 1, 1⟩⟩,
      ⟨[1], [(3, 3)], ⟨1, 1, 1, 1⟩⟩]
    [] ⟨1000000, 0, 0, 0⟩
    ([⟨[2], [(2, 2)], ⟨3, 1, 1, 1⟩⟩, ⟨[1], [(1, 1)], ⟨5, 1, 1, 1⟩⟩], ⟨5, 1, 1, 1⟩)
    (by simp [PoolDedup]) (by decide)

/-- C9 (counterexample): on serialized state whose `settings` object is
well-formed but whose `count` field is missing, `FromJSON` returns
failure *after* having overwritten `settings.max_best` (and
`max_depth`): the driver state after the failed call differs from the
state before it, refuting "internal state is the same after the failed
call as before it". -/
theorem C9_counterexample :
    (taskFromJSON ⟨"save.json", 5, 3, 7, false, ⟨1000000, 0, 0, 0⟩, .leaf 0, []⟩
      (some (Json.obj [("settings",
        Json.obj [("max_best", Json.num 9), ("max_depth", Json.num 2)])]))).1 = false ∧
    (taskFromJSON ⟨"save.json", 5, 3, 7, false, ⟨1000000, 0, 0, 0⟩, .leaf 0, []⟩
      (some (Json.obj [("settings",
        Json.obj [("max_best", Json.num 9), ("max_depth", Json.num 2)])]))).2.maxBest
      = 9 ∧
    (taskFromJSON ⟨"save.json", 5, 3, 7, false, ⟨1000000, 0, 0, 0⟩, .leaf 0, []⟩
      (some (Json.obj [("settings",
        Json.obj [("max_best", Json.num 9), ("max_depth", Json.num 2)])]))).2 ≠
      ⟨"save.json", 5, 3, 7, false, ⟨1000000, 0, 0, 0⟩, .leaf 0, []⟩ := by
  exact ⟨by decide, by decide, by decide⟩

/-- C9 (amended): `FromJSON` returns failure on invalid serialized
state, and the driver state is unchanged when the failure strikes
before the first field assignment — malformed JSON (a discarded parse),
a non-object document, or a document whose `settings` key is absent;
when a later field is missing or ill-typed the fields already parsed
keep their new values (see the counterexample). -/
theorem C9_amended (s : SearchTaskState) (oj : Option Json)
    (h : oj = none ∨
      (∃ j, oj = some j ∧ j.isObj = false) ∨
      (∃ fields, oj = some (Json.obj fields) ∧ jsonFind fields "settings" = none)) :
    taskFromJSON s oj = (false, s) := by
  rcases h with rfl | ⟨j, rfl, hobj⟩ | ⟨fields, rfl, hfind⟩
  · rfl
  · cases j <;> simp_all [taskFromJSON, Json.isObj]
  · simp [taskFromJSON, hfind]

/-- C9 (witness for the amended theorem): a non-object document is
rejected with the state intact. -/
theorem C9_amended_witness :
    taskFromJSON ⟨"save.json", 5, 3, 7, false, ⟨1000000, 0, 0, 0⟩, .leaf 0, []⟩
      (some (Json.num 3)) =
    (false, ⟨"save.json", 5, 3, 7, false, ⟨1000000, 0, 0, 0⟩, .leaf 0, []⟩) :=
  C9_amended _ _ (Or.inr (Or.inl ⟨Json.num 3, rfl, rfl⟩))

end FuncWander
